import Mathlib

/-!
Verification of the Shruti firmware's MIDI byte-stream decoder
(`hardware/midi/midi.h`, class `MidiStreamParser`) and of the incremental
LCD display convergence engine (`hardware/io/devices/sparkfun_ser_lcd.h`,
class `Display`), as shallow embeddings.

Machine bytes are modelled as `Nat` with explicit `% 256` where the C++
`uint8_t` conversions matter.  The event sink (`MidiDevice`) is modelled by
an inductive `Event` type; a call to a sink operation becomes an element of
the list of events a step returns.
-/

namespace Midi

/-- One sink call of the `MidiDevice` interface (midi.h lines 19-48).
`BozoByte` is the malformed-byte catch-all. -/
inductive Event where
  | NoteOn (channel note velocity : Nat)
  | NoteOff (channel note velocity : Nat)
  | AftertouchPoly (channel note velocity : Nat)
  | AftertouchChannel (channel velocity : Nat)
  | ControlChange (channel controller value : Nat)
  | ProgramChange (channel program : Nat)
  | PitchBend (channel pitch_bend : Nat)
  | AllSoundOff (channel : Nat)
  | ResetAllControllers (channel : Nat)
  | LocalControl (channel state : Nat)
  | AllNotesOff (channel : Nat)
  | OmniModeOff (channel : Nat)
  | OmniModeOn (channel : Nat)
  | MonoModeOn (channel num_channels : Nat)
  | PolyModeOn (channel : Nat)
  | SysExStart
  | SysExByte (sysex_byte : Nat)
  | SysExEnd
  | BozoByte (bozo_byte : Nat)
  | Clock
  | Start
  | Continue
  | Stop
  | ActiveSensing
  | Reset
  deriving DecidableEq

/-- The parser's mutable fields (midi.h lines 59-62).  `data` models the
`uint8_t data_[3]` array as a function from index to stored byte. -/
structure ParserState where
  running_status : Nat
  data : Nat → Nat
  data_size : Nat
  expected_data_size : Nat

/-- The constructor `MidiStreamParser()` (midi.h lines 68-73).  The `data_`
array is not initialised there; the parser lives in static storage in the
firmware, so its bytes start zeroed. -/
def initialState : ParserState :=
  { running_status := 0, data := fun _ => 0, data_size := 0, expected_data_size := 0 }

/-- The `switch (hi)` of `PushByte` (midi.h lines 85-107) that selects
`expected_data_size_` for a status byte, 1 being the default set before
the switch. -/
def expectedDataSize (b : Nat) : Nat :=
  if b &&& 0xf0 = 0x80 ∨ b &&& 0xf0 = 0x90 ∨ b &&& 0xf0 = 0xa0 ∨ b &&& 0xf0 = 0xb0 then 2
  else if b &&& 0xf0 = 0xc0 ∨ b &&& 0xf0 = 0xd0 then 1
  else if b &&& 0xf0 = 0xe0 then 2
  else if b &&& 0xf0 = 0xf0 then
    (if 0 < b &&& 0x0f ∧ b &&& 0x0f < 3 then 2 else if 4 ≤ b &&& 0x0f then 0 else 1)
  else 1

/-- The channel-mode sub-switch on `data_[0]` inside the `case 0xb0`
branch of `MessageReceived` (midi.h lines 151-181). -/
def controlChangeEvents (lo d0 d1 : Nat) : List Event :=
  if d0 = 0x78 then [.AllSoundOff lo]
  else if d0 = 0x79 then [.ResetAllControllers lo]
  else if d0 = 0x7a then [.LocalControl lo d1]
  else if d0 = 0x7b then [.AllNotesOff lo]
  else if d0 = 0x7c then [.OmniModeOff lo]
  else if d0 = 0x7d then [.OmniModeOn lo]
  else if d0 = 0x7e then [.MonoModeOn lo d1]
  else if d0 = 0x7f then [.PolyModeOn lo]
  else [.ControlChange lo d0 d1]

/-- The `case 0xf0` sub-switch on the low nibble of `MessageReceived`
(midi.h lines 191-227).  Low nibbles 1-6, 9 and 0xd have no dispatching
case and produce no sink call. -/
def systemEvents (lo d0 : Nat) : List Event :=
  if lo = 0x0 then [.SysExByte d0]
  else if lo = 0x7 then [.SysExEnd]
  else if lo = 0x8 then [.Clock]
  else if lo = 0xa then [.Start]
  else if lo = 0xb then [.Continue]
  else if lo = 0xc then [.Stop]
  else if lo = 0xe then [.ActiveSensing]
  else if lo = 0xf then [.Reset]
  else []

/-- `MidiStreamParser::MessageReceived` (midi.h lines 129-230): the sink
calls made for a complete message with status byte `status` and buffered
data bytes `data 0`, `data 1`.  A zero status falls through the `if` into
the switch, whose `hi = 0` matches no case. -/
def MessageReceived (status : Nat) (data : Nat → Nat) : List Event :=
  let hi := status &&& 0xf0
  let lo := status &&& 0x0f
  (if status = 0 then [.BozoByte (data 0)] else []) ++
  (if hi = 0x80 then
    (if data 1 ≠ 0 then [.NoteOn lo (data 0) (data 1)] else [.NoteOff lo (data 0) 0])
  else if hi = 0x90 then [.NoteOff lo (data 0) (data 1)]
  else if hi = 0xa0 then [.AftertouchPoly lo (data 0) (data 1)]
  else if hi = 0xb0 then controlChangeEvents lo (data 0) (data 1)
  else if hi = 0xc0 then [.ProgramChange lo (data 0)]
  else if hi = 0xd0 then [.AftertouchChannel lo (data 0)]
  else if hi = 0xe0 then [.PitchBend lo (((data 0 <<< 7) + data 1) % 65536)]
  else if hi = 0xf0 then systemEvents lo (data 0)
  else [])

/-- `MidiStreamParser::PushByte` (midi.h lines 75-127): one input byte,
returning the new parser state and the sink calls made, in order. -/
def PushByte (s : ParserState) (b : Nat) : ParserState × List Event :=
  if 0xf8 ≤ b then
    (s, MessageReceived b s.data)
  else
    let s1 : ParserState :=
      if 0x80 ≤ b then
        { s with data_size := 0, expected_data_size := expectedDataSize b,
                 running_status := b }
      else
        { s with data := Function.update s.data s.data_size (b % 256),
                 data_size := s.data_size + 1 }
    let ev1 : List Event :=
      if 0x80 ≤ b then
        (if s.running_status = 0xf0 then [.SysExEnd] else []) ++
        (if b = 0xf0 then [.SysExStart] else [])
      else []
    if s1.expected_data_size ≤ s1.data_size then
      let ev2 := MessageReceived s1.running_status s1.data
      let s2 : ParserState :=
        if 0xf0 < s1.running_status then
          { s1 with data_size := 0, expected_data_size := 0, running_status := 0 }
        else
          { s1 with data_size := 0 }
      (s2, ev1 ++ ev2)
    else
      (s1, ev1)

/-- Feeding a whole byte list through `PushByte`, collecting all events. -/
def pushBytes (s : ParserState) (bs : List Nat) : ParserState × List Event :=
  match bs with
  | [] => (s, [])
  | b :: rest =>
      let r1 := PushByte s b
      let r2 := pushBytes r1.1 rest
      (r2.1, r1.2 ++ r2.2)

/-- A parser state the firmware can actually be in: produced from the
freshly constructed parser by some byte stream. -/
def Reachable (s : ParserState) : Prop :=
  ∃ bs : List Nat, (∀ b ∈ bs, b < 256) ∧ (pushBytes initialState bs).1 = s

/-- When no running status is established, no data is pending and none is
expected.  (`running_status_` only becomes 0 via the constructor or the
system-common clear, both of which zero the other two fields.) -/
def NoStatusEmpty (s : ParserState) : Prop :=
  s.running_status = 0 → s.expected_data_size = 0 ∧ s.data_size = 0

/-- The spec's parser-state invariant: `data_count ≤ expected_data_count
≤ 2` and `running_status` is 0 or a byte with the high bit set. -/
def ParserInvariant (s : ParserState) : Prop :=
  s.data_size ≤ s.expected_data_size ∧ s.expected_data_size ≤ 2 ∧
    (s.running_status = 0 ∨
      (s.running_status < 256 ∧ s.running_status.testBit 7 = true))

/-- The parser state right after pushing `0xf0` into a fresh parser: an
open system-exclusive run. -/
def sysexOpenState : ParserState :=
  { running_status := 0xf0, data := fun _ => 0, data_size := 0, expected_data_size := 1 }

/-- The parser state after `0xf1` (song position, two data bytes expected)
followed by one data byte: a system-common message one byte from
completion. -/
def systemPendingState : ParserState :=
  { running_status := 0xf1, data := fun _ => 0, data_size := 1, expected_data_size := 2 }

/-- `MessageReceived` reads only slots 0 and 1 of the data buffer. -/
theorem MessageReceived_congr (status : Nat) (d e : Nat → Nat)
    (h0 : d 0 = e 0) (h1 : d 1 = e 1) :
    MessageReceived status d = MessageReceived status e := by
  unfold MessageReceived controlChangeEvents systemEvents
  rw [h0, h1]

/-- The per-status data-size table never exceeds 2. -/
theorem expectedDataSize_le_two (b : Nat) : expectedDataSize b ≤ 2 := by
  unfold expectedDataSize
  repeat' split
  all_goals omega

set_option maxRecDepth 4096 in
/-- On a channel-voice status byte outside the one-data-byte rows
(program change `0xc0`, channel aftertouch `0xd0`), the table selects
two data bytes. -/
theorem expectedDataSize_channel :
    ∀ b : Fin 256, 0x80 ≤ b.val → b.val ≤ 0xef →
      b.val &&& 0xf0 ≠ 0xc0 → b.val &&& 0xf0 ≠ 0xd0 →
      expectedDataSize b.val = 2 := by decide

set_option maxRecDepth 4096 in
/-- System-common status bytes `0xf4`-`0xf7` expect no data byte. -/
theorem expectedDataSize_f4_f7 :
    ∀ b : Fin 256, 0xf4 ≤ b.val → b.val ≤ 0xf7 → expectedDataSize b.val = 0 := by decide

/-- A realtime byte is passed through with no state change. -/
theorem PushByte_realtime (s : ParserState) (b : Nat) (h : 0xf8 ≤ b) :
    PushByte s b = (s, MessageReceived b s.data) := by
  unfold PushByte
  rw [if_pos h]

/-- A non-realtime status byte whose expected data size is positive only
rewrites the parser state and emits the sysex-framing events. -/
theorem PushByte_status (s : ParserState) (b : Nat)
    (h1 : 0x80 ≤ b) (h2 : b < 0xf8) (h3 : expectedDataSize b ≠ 0) :
    PushByte s b =
      ({ s with data_size := 0, expected_data_size := expectedDataSize b,
                running_status := b },
       (if s.running_status = 0xf0 then [Event.SysExEnd] else []) ++
       (if b = 0xf0 then [Event.SysExStart] else [])) := by
  unfold PushByte
  rw [if_neg (by omega)]
  simp only [if_pos h1]
  rw [if_neg (by simpa using h3)]

/-- A non-realtime status byte expecting no data dispatches immediately;
system-common statuses (`> 0xf0`) then clear the running status. -/
theorem PushByte_status_dispatch (s : ParserState) (b : Nat)
    (h1 : 0xf0 < b) (h2 : b < 0xf8) (h3 : expectedDataSize b = 0) :
    PushByte s b =
      ({ s with data_size := 0, expected_data_size := 0, running_status := 0 },
       ((if s.running_status = 0xf0 then [Event.SysExEnd] else []) ++
        (if b = 0xf0 then [Event.SysExStart] else [])) ++
       MessageReceived b s.data) := by
  unfold PushByte
  rw [if_neg (by omega)]
  simp only [if_pos (by omega : 0x80 ≤ b)]
  rw [if_pos (by simp [h3]), if_pos (by omega : 0xf0 < b)]

/-- A data byte that does not yet complete the pending message is only
buffered. -/
theorem PushByte_data_buffered (s : ParserState) (b : Nat)
    (h1 : b < 0x80) (h2 : s.data_size + 1 < s.expected_data_size) :
    PushByte s b =
      ({ s with data := Function.update s.data s.data_size (b % 256),
                data_size := s.data_size + 1 }, []) := by
  unfold PushByte
  rw [if_neg (show ¬ 0xf8 ≤ b by omega)]
  simp only [if_neg (show ¬ 0x80 ≤ b by omega)]
  rw [if_neg (by omega)]

/-- A data byte that completes the pending message dispatches it under the
current channel-voice running status, which is retained. -/
theorem PushByte_data_dispatch (s : ParserState) (b : Nat)
    (h1 : b < 0x80) (h2 : s.expected_data_size ≤ s.data_size + 1)
    (h3 : s.running_status ≤ 0xf0) :
    PushByte s b =
      ({ s with data := Function.update s.data s.data_size (b % 256),
                data_size := 0 },
       MessageReceived s.running_status
         (Function.update s.data s.data_size (b % 256))) := by
  unfold PushByte
  rw [if_neg (show ¬ 0xf8 ≤ b by omega)]
  simp only [if_neg (show ¬ 0x80 ≤ b by omega)]
  rw [if_pos (by omega), if_neg (by omega)]
  simp only [List.nil_append]

/-- A data byte that completes the pending message under a system-common
running status (`> 0xf0`) dispatches it and clears the running status. -/
theorem PushByte_data_dispatch_clear (s : ParserState) (b : Nat)
    (h1 : b < 0x80) (h2 : s.expected_data_size ≤ s.data_size + 1)
    (h3 : 0xf0 < s.running_status) :
    PushByte s b =
      ({ s with data := Function.update s.data s.data_size (b % 256),
                data_size := 0, expected_data_size := 0, running_status := 0 },
       MessageReceived s.running_status
         (Function.update s.data s.data_size (b % 256))) := by
  unfold PushByte
  rw [if_neg (show ¬ 0xf8 ≤ b by omega)]
  simp only [if_neg (show ¬ 0x80 ≤ b by omega)]
  rw [if_pos (by omega), if_pos (by omega)]
  simp only [List.nil_append]

set_option maxRecDepth 4096 in
/-- A status byte whose data-size table entry is 0 is one of the
system-common bytes `0xf4`-`0xf7`, all above `0xf0`. -/
theorem expectedDataSize_zero_gt :
    ∀ b : Fin 256, 0x80 ≤ b.val → expectedDataSize b.val = 0 → 0xf0 < b.val := by decide

theorem NoStatusEmpty_push (s : ParserState) (b : Nat) (h : NoStatusEmpty s) :
    NoStatusEmpty (PushByte s b).1 := by
  unfold NoStatusEmpty at h ⊢
  rcases le_or_lt 0xf8 b with hb | hb
  · rw [PushByte_realtime s b hb]
    exact h
  rcases le_or_lt 0x80 b with hb2 | hb2
  · by_cases he : expectedDataSize b = 0
    · have hgt : 0xf0 < b := expectedDataSize_zero_gt ⟨b, by omega⟩ hb2 he
      rw [PushByte_status_dispatch s b hgt hb he]
      intro _
      exact ⟨rfl, rfl⟩
    · rw [PushByte_status s b hb2 hb he]
      intro hr
      simp only at hr
      omega
  · by_cases hd : s.expected_data_size ≤ s.data_size + 1
    · by_cases hra : 0xf0 < s.running_status
      · rw [PushByte_data_dispatch_clear s b hb2 hd hra]
        intro _
        exact ⟨rfl, rfl⟩
      · rw [PushByte_data_dispatch s b hb2 hd (by omega)]
        intro hr
        simp only at hr
        exact ⟨(h hr).1, rfl⟩
    · rw [PushByte_data_buffered s b hb2 (by omega)]
      intro hr
      simp only at hr
      rcases h hr with ⟨he, -⟩
      omega

theorem NoStatusEmpty_pushBytes (s : ParserState) (bs : List Nat)
    (h : NoStatusEmpty s) : NoStatusEmpty (pushBytes s bs).1 := by
  induction bs generalizing s with
  | nil => exact h
  | cons b rest ih =>
      unfold pushBytes
      exact ih _ (NoStatusEmpty_push s b h)

theorem Reachable_noStatusEmpty (s : ParserState) (h : Reachable s) :
    NoStatusEmpty s := by
  obtain ⟨bs, -, hs⟩ := h
  have := NoStatusEmpty_pushBytes initialState bs (by intro hr; exact ⟨rfl, rfl⟩)
  rwa [hs] at this

set_option maxRecDepth 4096 in
/-- Any byte in `[0x80, 0xff]` has its high bit set. -/
theorem testBit7_of_ge :
    ∀ b : Fin 256, 0x80 ≤ b.val → b.val.testBit 7 = true := by decide

end Midi

namespace Lcd

/-- Bitwise complement of a `uint8_t` value (`~blink_` in the C++). -/
def complement8 (b : Nat) : Nat := 255 - b % 256

/-- The `Display` template's state (sparkfun_ser_lcd.h lines 200-209) at the
default instantiation `width = 16`, `height = 2`, so `lcd_buffer_size = 32`.
The scan position is kept in `Fin 32`: `Init` leaves it at its zeroed static
value and `Update` advances it masked by `lcd_buffer_size_wrap = 31`, so it
never leaves that range.  The two text pages are functions from cell index
to character byte. -/
structure DisplayState where
  local_ : Fin 32 → Nat
  remote_ : Fin 32 → Nat
  scan_position_ : Fin 32
  scan_position_last_write_ : Nat
  blink_ : Nat
  blink_clock_ : Nat
  cursor_position_ : Nat
  status_ : Nat

/-- The state after `Init()` (sparkfun_ser_lcd.h lines 52-63): local page
all spaces, remote page all question marks, last write 255, no cursor; the
fields `Init` does not touch (scan position, blink clock, status) hold their
zeroed static value. -/
def initialDisplay : DisplayState :=
  { local_ := fun _ => 32, remote_ := fun _ => 63,
    scan_position_ := 0, scan_position_last_write_ := 255,
    blink_ := 0, blink_clock_ := 0, cursor_position_ := 255, status_ := 0 }

/-- The blink-clock step at the top of `Update` (lines 133-137): advance the
clock masked to `kLcdCursorBlinkRate = 0x7f`; on wrap, invert the blink
phase and clear the status overlay. -/
def blinkStep (s : DisplayState) : DisplayState :=
  let bc := (s.blink_clock_ + 1) &&& 0x7f
  { s with blink_clock_ := bc,
           blink_ := if bc = 0 then complement8 s.blink_ else s.blink_,
           status_ := if bc = 0 then 0 else s.status_ }

/-- Character resolution of `Update` (lines 139-155), evaluated on the state
after the blink step: cursor glyph `kLcdCursor = 0xff` when the scan cell is
the cursor and the blink phase is on; else the status glyph when a status is
pending, the cell is column 0 or 15 of row 0 and blank in the local page;
else the local page's character. -/
def resolveChar (s : DisplayState) : Nat :=
  if s.scan_position_.val = s.cursor_position_ ∧ s.blink_ ≠ 0 then 0xff
  else if s.status_ ≠ 0 ∧ (s.scan_position_.val = 0 ∨ s.scan_position_.val = 15) ∧
          s.local_ s.scan_position_ = 32 then s.status_ - 1
  else s.local_ s.scan_position_

/-- The reposition command's address byte (lines 171-174): `0x80`, the row
bits `scan & ~(width-1)` shifted by `Log2<64/width> = 2`, and the column
bits `scan & (width-1)`. -/
def addressByte (p : Fin 32) : Nat :=
  0x80 ||| ((p.val &&& 0xf0) <<< 2) ||| (p.val &&& 0x0f)

/-- Advance of the scan position (line 185): `(scan + 1) & 31`. -/
def nextScan (p : Fin 32) : Fin 32 := ⟨(p.val + 1) % 32, Nat.mod_lt _ (by omega)⟩

/-- `Display::Update` (sparkfun_ser_lcd.h lines 123-186).  `free` is what
`DisplaySerialOutput::writable()` reports; the returned list holds the bytes
passed to `DisplaySerialOutput::Overwrite`, in order. -/
def Update (free : Nat) (s : DisplayState) : DisplayState × List Nat :=
  if free < 3 then (s, [])
  else
    let s1 := blinkStep s
    let ch := resolveChar s1
    if ch ≠ s1.remote_ s1.scan_position_ ∨ s1.scan_position_.val = s1.cursor_position_ then
      let bytes : List Nat :=
        if s1.scan_position_.val = (s1.scan_position_last_write_ + 1) % 256 ∧
           s1.scan_position_.val &&& 0x0f ≠ 0 then [ch]
        else [0xfe, addressByte s1.scan_position_, ch]
      ({ s1 with remote_ := Function.update s1.remote_ s1.scan_position_ ch,
                 scan_position_last_write_ := s1.scan_position_.val,
                 scan_position_ := nextScan s1.scan_position_ }, bytes)
    else
      ({ s1 with scan_position_ := nextScan s1.scan_position_ }, [])

/-- A sequence of `Update` calls, one per reported transport capacity,
collecting every transmitted byte. -/
def runUpdates (caps : List Nat) (s : DisplayState) : DisplayState × List Nat :=
  match caps with
  | [] => (s, [])
  | c :: rest =>
      let r1 := Update c s
      let r2 := runUpdates rest r1.1
      (r2.1, r1.2 ++ r2.2)

/-- A display whose transmitted mirror matches the desired page, with no
cursor shown (position outside the 32 visible cells) and no pending status
overlay. -/
def Converged (s : DisplayState) : Prop :=
  (∀ i, s.remote_ i = s.local_ i) ∧ s.status_ = 0 ∧ 32 ≤ s.cursor_position_

/-- A fully converged display: both pages blank, cursor hidden, no status
pending. -/
def convergedDisplay : DisplayState :=
  { initialDisplay with remote_ := fun _ => 32 }

/-- The reposition command's address byte always has bit 7 set (the 0x80
command base). -/
theorem addressByte_testBit7 : ∀ p : Fin 32, (addressByte p).testBit 7 = true := by decide

/-- One tick of a converged display transmits nothing and stays converged,
whatever the transport capacity. -/
theorem Update_converged (free : Nat) (s : DisplayState) (h : Converged s) :
    (Update free s).2 = [] ∧ Converged (Update free s).1 := by
  obtain ⟨hmirror, hstatus, hcursor⟩ := h
  unfold Update
  by_cases hfree : free < 3
  · rw [if_pos hfree]
    exact ⟨rfl, hmirror, hstatus, hcursor⟩
  rw [if_neg hfree]
  have hscan : (blinkStep s).scan_position_ = s.scan_position_ := rfl
  have hcur : (blinkStep s).cursor_position_ = s.cursor_position_ := rfl
  have hloc : (blinkStep s).local_ = s.local_ := rfl
  have hrem : (blinkStep s).remote_ = s.remote_ := rfl
  have hst : (blinkStep s).status_ = 0 := by
    unfold blinkStep
    simp [hstatus]
  have hne : ¬ (blinkStep s).scan_position_.val = (blinkStep s).cursor_position_ := by
    rw [hscan, hcur]
    have := s.scan_position_.isLt
    omega
  have hch : resolveChar (blinkStep s) = (blinkStep s).local_ (blinkStep s).scan_position_ := by
    unfold resolveChar
    rw [if_neg (by simp [hne]), if_neg (by simp [hst])]
  rw [if_neg (by
    push_neg
    constructor
    · rw [hch, hrem, hloc, hscan]
      exact (hmirror _).symm
    · rw [hscan, hcur]
      have := s.scan_position_.isLt
      omega)]
  refine ⟨rfl, ?_, ?_, ?_⟩
  · intro i
    exact hmirror i
  · exact hst
  · rw [hcur]
    exact hcursor

end Lcd


open Midi Lcd

/-- C1 (counterexample): the spec's example claims the byte stream
`[0x90, 0x40, 0x7f, 0x3c, 0x00]` yields two NoteOn events; the code's
`case 0x90` of `MessageReceived` dispatches `Device::NoteOff`, so it does
not. -/
theorem example_trace_noteOn_refuted :
    (pushBytes initialState [0x90, 0x40, 0x7f, 0x3c, 0x00]).2 ≠
      [Event.NoteOn 0 0x40 0x7f, Event.NoteOn 0 0x3c 0] := by decide

/-- C1 (amended): starting from the initial parser state, the bytes
`[0x90, 0x40, 0x7f, 0x3c, 0x00]` produce exactly
`NoteOff(ch=0, note=0x40, vel=0x7f)` then `NoteOff(ch=0, note=0x3c, vel=0)`,
the second via running status. -/
theorem example_trace_events :
    (pushBytes initialState [0x90, 0x40, 0x7f, 0x3c, 0x00]).2 =
      [Event.NoteOff 0 0x40 0x7f, Event.NoteOff 0 0x3c 0] := by decide

/-- C2 (counterexample): the realtime byte `0xf9` is passed to the dispatch
switch, but no case matches its low nibble, so it produces no sink event at
all — refuting "each such byte produces its own immediate sink event". -/
theorem realtime_f9_no_event : (PushByte initialState 0xf9).2 = [] := by decide

/-- C2 (amended): every byte `b ≥ 0xf8` is dispatched immediately through
`MessageReceived` and leaves the whole parser state (running status, data
buffer, data count, expected count) unchanged — so a realtime byte between
the data bytes of an in-progress message cannot disturb it — and every such
byte except `0xf9` and `0xfd` (which fall through the dispatch switch)
produces its own immediate sink event. -/
theorem realtime_passthrough (s : ParserState) (b : Nat)
    (h1 : 0xf8 ≤ b) (h2 : b ≤ 0xff) :
    PushByte s b = (s, MessageReceived b s.data) ∧
      (b ≠ 0xf9 → b ≠ 0xfd → (PushByte s b).2 ≠ []) := by
  refine ⟨PushByte_realtime s b h1, ?_⟩
  intro h3 h4
  rw [PushByte_realtime s b h1]
  interval_cases b
  · exact List.cons_ne_nil _ _
  · exact absurd rfl h3
  · exact List.cons_ne_nil _ _
  · exact List.cons_ne_nil _ _
  · exact List.cons_ne_nil _ _
  · exact absurd rfl h4
  · exact List.cons_ne_nil _ _
  · exact List.cons_ne_nil _ _

/-- Witness for C2's theorem at the realtime clock byte `0xf8`. -/
theorem realtime_passthrough_witness :
    PushByte initialState 0xf8 = (initialState, MessageReceived 0xf8 initialState.data) ∧
      ((0xf8 : Nat) ≠ 0xf9 → (0xf8 : Nat) ≠ 0xfd → (PushByte initialState 0xf8).2 ≠ []) :=
  realtime_passthrough initialState 0xf8 (by omega) (by omega)

/-- C3: a channel-voice status byte `S` expecting two data bytes, followed
by data bytes `D1 D2 D3 D4`, dispatches two complete messages, both under
status `S`, which also remains the running status afterwards; whereas a
system-common status byte (`> 0xf0`) clears the running status to 0 as soon
as it completes a message — either immediately (`0xf4`-`0xf7`) or on the
data byte that completes it. -/
theorem running_status_behavior (s t u : ParserState) (S D1 D2 D3 D4 b c : Nat)
    (hS1 : 0x80 ≤ S) (hS2 : S ≤ 0xef)
    (hS3 : S &&& 0xf0 ≠ 0xc0) (hS4 : S &&& 0xf0 ≠ 0xd0)
    (hD1 : D1 < 0x80) (hD2 : D2 < 0x80) (hD3 : D3 < 0x80) (hD4 : D4 < 0x80)
    (hb1 : 0xf4 ≤ b) (hb2 : b ≤ 0xf7)
    (hc : c < 0x80) (hu1 : 0xf0 < u.running_status)
    (hu2 : u.expected_data_size ≤ u.data_size + 1) :
    ((pushBytes s [S, D1, D2, D3, D4]).2 =
        (if s.running_status = 0xf0 then [Event.SysExEnd] else []) ++
        MessageReceived S (fun i => if i = 0 then D1 else D2) ++
        MessageReceived S (fun i => if i = 0 then D3 else D4) ∧
      (pushBytes s [S, D1, D2, D3, D4]).1.running_status = S) ∧
    (PushByte t b).1.running_status = 0 ∧
    (PushByte u c).1.running_status = 0 := by
  have hexp : expectedDataSize S = 2 :=
    expectedDataSize_channel ⟨S, by omega⟩ hS1 hS2 hS3 hS4
  refine ⟨?_, ?_, ?_⟩
  · have h0 : PushByte s S =
        ({ running_status := S, data := s.data, data_size := 0, expected_data_size := 2 },
         (if s.running_status = 0xf0 then [Event.SysExEnd] else [])) := by
      rw [PushByte_status s S hS1 (by omega) (by omega), hexp,
          if_neg (show ¬ S = 0xf0 by omega)]
      simp
    have h1 : PushByte
        { running_status := S, data := s.data, data_size := 0, expected_data_size := 2 } D1 =
        ({ running_status := S, data := Function.update s.data 0 (D1 % 256),
           data_size := 1, expected_data_size := 2 }, []) := by
      rw [PushByte_data_buffered _ D1 hD1 (show (0 : Nat) + 1 < 2 by omega)]
    have h2 : PushByte
        { running_status := S, data := Function.update s.data 0 (D1 % 256),
          data_size := 1, expected_data_size := 2 } D2 =
        ({ running_status := S,
           data := Function.update (Function.update s.data 0 (D1 % 256)) 1 (D2 % 256),
           data_size := 0, expected_data_size := 2 },
         MessageReceived S
           (Function.update (Function.update s.data 0 (D1 % 256)) 1 (D2 % 256))) := by
      rw [PushByte_data_dispatch _ D2 hD2 (show (2 : Nat) ≤ 1 + 1 by omega)
            (show S ≤ 0xf0 by omega)]
    have h3 : PushByte
        { running_status := S,
          data := Function.update (Function.update s.data 0 (D1 % 256)) 1 (D2 % 256),
          data_size := 0, expected_data_size := 2 } D3 =
        ({ running_status := S,
           data := Function.update
             (Function.update (Function.update s.data 0 (D1 % 256)) 1 (D2 % 256)) 0 (D3 % 256),
           data_size := 1, expected_data_size := 2 }, []) := by
      rw [PushByte_data_buffered _ D3 hD3 (show (0 : Nat) + 1 < 2 by omega)]
    have h4 : PushByte
        { running_status := S,
          data := Function.update
            (Function.update (Function.update s.data 0 (D1 % 256)) 1 (D2 % 256)) 0 (D3 % 256),
          data_size := 1, expected_data_size := 2 } D4 =
        ({ running_status := S,
           data := Function.update (Function.update
             (Function.update (Function.update s.data 0 (D1 % 256)) 1 (D2 % 256)) 0 (D3 % 256))
             1 (D4 % 256),
           data_size := 0, expected_data_size := 2 },
         MessageReceived S
           (Function.update (Function.update
             (Function.update (Function.update s.data 0 (D1 % 256)) 1 (D2 % 256)) 0 (D3 % 256))
             1 (D4 % 256))) := by
      rw [PushByte_data_dispatch _ D4 hD4 (show (2 : Nat) ≤ 1 + 1 by omega)
            (show S ≤ 0xf0 by omega)]
    have hm1 : MessageReceived S
        (Function.update (Function.update s.data 0 (D1 % 256)) 1 (D2 % 256)) =
        MessageReceived S (fun i => if i = 0 then D1 else D2) :=
      MessageReceived_congr S _ _
        (by simp [Function.update_apply, Nat.mod_eq_of_lt (show D1 < 256 by omega)])
        (by simp [Function.update_apply, Nat.mod_eq_of_lt (show D2 < 256 by omega)])
    have hm2 : MessageReceived S
        (Function.update (Function.update
          (Function.update (Function.update s.data 0 (D1 % 256)) 1 (D2 % 256)) 0 (D3 % 256))
          1 (D4 % 256)) =
        MessageReceived S (fun i => if i = 0 then D3 else D4) :=
      MessageReceived_congr S _ _
        (by simp [Function.update_apply, Nat.mod_eq_of_lt (show D3 < 256 by omega)])
        (by simp [Function.update_apply, Nat.mod_eq_of_lt (show D4 < 256 by omega)])
    constructor
    · show (pushBytes s [S, D1, D2, D3, D4]).2 = _
      simp only [pushBytes]
      rw [h0]
      dsimp only
      rw [h1]
      dsimp only
      rw [h2]
      dsimp only
      rw [h3]
      dsimp only
      rw [h4]
      dsimp only
      rw [hm1, hm2]
      simp
    · show (pushBytes s [S, D1, D2, D3, D4]).1.running_status = S
      simp only [pushBytes]
      rw [h0]
      dsimp only
      rw [h1]
      dsimp only
      rw [h2]
      dsimp only
      rw [h3]
      dsimp only
      rw [h4]
  · have hz : expectedDataSize b = 0 := expectedDataSize_f4_f7 ⟨b, by omega⟩ hb1 hb2
    rw [PushByte_status_dispatch t b (by omega) (by omega) hz]
  · rw [PushByte_data_dispatch_clear u c hc hu2 hu1]

/-- Witness for C3's theorem: note-on on channel 2 with running status,
the immediate system-common byte `0xf4`, and a data byte completing a
pending `0xf1` message. -/
theorem running_status_behavior_witness :
    ((pushBytes initialState [0x92, 1, 2, 3, 4]).2 =
        (if initialState.running_status = 0xf0 then [Event.SysExEnd] else []) ++
        MessageReceived 0x92 (fun i => if i = 0 then 1 else 2) ++
        MessageReceived 0x92 (fun i => if i = 0 then 3 else 4) ∧
      (pushBytes initialState [0x92, 1, 2, 3, 4]).1.running_status = 0x92) ∧
    (PushByte initialState 0xf4).1.running_status = 0 ∧
    (PushByte systemPendingState 0).1.running_status = 0 :=
  running_status_behavior initialState initialState systemPendingState
    0x92 1 2 3 4 0xf4 0
    (by omega) (by omega) (by decide) (by decide)
    (by omega) (by omega) (by omega) (by omega)
    (by omega) (by omega) (by omega) (by decide) (by decide)

/-- C4: pushing `0xf0` emits `SysExStart` (preceded by `SysExEnd` exactly
when a sysex run was already open); and whenever the running status is
`0xf0`, any non-realtime status byte (`0x80`-`0xf7`) makes `SysExEnd` the
first event emitted, before anything else is processed. -/
theorem sysex_framing (s t : ParserState) (b : Nat)
    (h1 : t.running_status = 0xf0) (h2 : 0x80 ≤ b) (h3 : b ≤ 0xf7) :
    (PushByte s 0xf0).2 =
      (if s.running_status = 0xf0 then [Event.SysExEnd] else []) ++ [Event.SysExStart] ∧
    (PushByte t b).2.head? = some Event.SysExEnd := by
  constructor
  · rw [PushByte_status s 0xf0 (by omega) (by omega) (by decide)]
    simp
  · by_cases hz : expectedDataSize b = 0
    · rw [PushByte_status_dispatch t b
            (expectedDataSize_zero_gt ⟨b, by omega⟩ h2 hz) (by omega) hz]
      simp [h1]
    · rw [PushByte_status t b h2 (by omega) hz]
      simp [h1]

/-- Witness for C4's theorem: a fresh parser receiving `0xf0`, and an open
sysex run terminated by the status byte `0x90`. -/
theorem sysex_framing_witness :
    (PushByte initialState 0xf0).2 =
      (if initialState.running_status = 0xf0 then [Event.SysExEnd] else []) ++
        [Event.SysExStart] ∧
    (PushByte sysexOpenState 0x90).2.head? = some Event.SysExEnd :=
  sysex_framing initialState sysexOpenState 0x90 rfl (by omega) (by omega)

/-- C5: in any reachable parser state with no running status established,
a data byte (`< 0x80`) produces exactly one `BozoByte` (malformed-byte)
event carrying that byte; and `PushByte` is a total function — every byte
in every state yields a defined result, never a failure. -/
theorem malformed_byte_tolerance (s : ParserState) (b : Nat)
    (h1 : Reachable s) (h2 : s.running_status = 0) (h3 : b < 0x80) :
    (∃ r, PushByte s b = r) ∧ (PushByte s b).2 = [Event.BozoByte b] := by
  refine ⟨⟨_, rfl⟩, ?_⟩
  obtain ⟨he, hd⟩ := Reachable_noStatusEmpty s h1 h2
  rw [PushByte_data_dispatch s b h3 (by omega) (by omega)]
  show MessageReceived s.running_status _ = _
  rw [h2, hd]
  simp [MessageReceived, Function.update_apply,
        Nat.mod_eq_of_lt (show b < 256 by omega)]

/-- Witness for C5's theorem: the data byte 5 pushed into a fresh parser. -/
theorem malformed_byte_tolerance_witness :
    (∃ r, PushByte initialState 5 = r) ∧
      (PushByte initialState 5).2 = [Event.BozoByte 5] :=
  malformed_byte_tolerance initialState 5 ⟨[], by simp, rfl⟩ rfl (by omega)

/-- C6: the invariant `data_count ≤ expected_data_count ≤ 2`, with
`running_status` either 0 or a byte with the high bit set, holds in the
initial parser state and is preserved by `PushByte` on every input byte. -/
theorem parser_invariant_preserved (s : ParserState) (b : Nat)
    (h1 : ParserInvariant s) (h2 : b < 256) :
    ParserInvariant initialState ∧ ParserInvariant (PushByte s b).1 := by
  obtain ⟨hds, hexp, hrun⟩ := h1
  refine ⟨⟨Nat.le_refl 0, show (0 : Nat) ≤ 2 by omega, Or.inl rfl⟩, ?_⟩
  rcases le_or_lt 0xf8 b with hb | hb
  · rw [PushByte_realtime s b hb]
    exact ⟨hds, hexp, hrun⟩
  rcases le_or_lt 0x80 b with hb2 | hb2
  · by_cases hz : expectedDataSize b = 0
    · rw [PushByte_status_dispatch s b
            (expectedDataSize_zero_gt ⟨b, by omega⟩ hb2 hz) (by omega) hz]
      exact ⟨Nat.le_refl 0, show (0 : Nat) ≤ 2 by omega, Or.inl rfl⟩
    · rw [PushByte_status s b hb2 (by omega) hz]
      exact ⟨Nat.zero_le _, expectedDataSize_le_two b,
             Or.inr ⟨h2, testBit7_of_ge ⟨b, h2⟩ hb2⟩⟩
  · by_cases hdisp : s.expected_data_size ≤ s.data_size + 1
    · by_cases hra : 0xf0 < s.running_status
      · rw [PushByte_data_dispatch_clear s b hb2 hdisp hra]
        exact ⟨Nat.le_refl 0, show (0 : Nat) ≤ 2 by omega, Or.inl rfl⟩
      · rw [PushByte_data_dispatch s b hb2 hdisp (by omega)]
        exact ⟨Nat.zero_le _, hexp, hrun⟩
    · rw [PushByte_data_buffered s b hb2 (by omega)]
      exact ⟨show s.data_size + 1 ≤ s.expected_data_size by omega, hexp, hrun⟩

/-- Witness for C6's theorem: the invariant holds for the fresh parser and
after pushing the status byte `0x90` into it. -/
theorem parser_invariant_preserved_witness :
    ParserInvariant initialState ∧ ParserInvariant (PushByte initialState 0x90).1 :=
  parser_invariant_preserved initialState 0x90
    ⟨Nat.le_refl 0, show (0 : Nat) ≤ 2 by omega, Or.inl rfl⟩ (by omega)

/-- C10: pushing the sysex terminator `0xf7` while the running status is
`0xf0` emits `SysExEnd` twice in that single call: once because a new
status byte implicitly closes the open sysex run, and once because `0xf7`
expects no data and is dispatched immediately as its own SysExEnd
message. -/
theorem sysex_terminator_double_end (s : ParserState) (h : s.running_status = 0xf0) :
    (PushByte s 0xf7).2 = [Event.SysExEnd, Event.SysExEnd] := by
  rw [PushByte_status_dispatch s 0xf7 (by omega) (by omega) (by decide)]
  show ((if s.running_status = 0xf0 then [Event.SysExEnd] else []) ++ _) ++ _ = _
  rw [h]
  rfl

/-- Witness for C10's theorem at the open-sysex state. -/
theorem sysex_terminator_double_end_witness :
    (PushByte sysexOpenState 0xf7).2 = [Event.SysExEnd, Event.SysExEnd] :=
  sysex_terminator_double_end sysexOpenState rfl

/-- C7: when the transport reports fewer than 3 free bytes, `Update` is a
complete no-op for every display state: it transmits nothing and leaves
every field (pages, scan position, blink clock and phase, cursor, status,
last-write position) unchanged. -/
theorem update_backpressure_noop (free : Nat) (s : DisplayState) (h : free < 3) :
    Update free s = (s, []) := by
  unfold Update
  rw [if_pos h]

/-- Witness for C7's theorem at capacity 2 on the freshly initialised
display. -/
theorem update_backpressure_noop_witness :
    Update 2 initialDisplay = (initialDisplay, []) :=
  update_backpressure_noop 2 initialDisplay (by omega)

/-- C8: whenever a tick with enough transport capacity decides to transmit
(the resolved character differs from the mirror, or the cell is the cursor
position), it emits exactly the character byte when the previous write
landed at the immediately preceding position and the cell is not at the
start of a row; otherwise exactly the three bytes `0xfe`, an address byte
with bit 7 set, and the character; afterwards the mirror holds the resolved
character at that cell and the cell is recorded as last written. -/
theorem update_transmit_encoding (free : Nat) (s : DisplayState)
    (hfree : 3 ≤ free)
    (hsend : resolveChar (blinkStep s) ≠ (blinkStep s).remote_ (blinkStep s).scan_position_ ∨
      (blinkStep s).scan_position_.val = (blinkStep s).cursor_position_) :
    (((blinkStep s).scan_position_.val =
        ((blinkStep s).scan_position_last_write_ + 1) % 256 ∧
        (blinkStep s).scan_position_.val &&& 0x0f ≠ 0 →
        (Update free s).2 = [resolveChar (blinkStep s)]) ∧
     (¬ ((blinkStep s).scan_position_.val =
        ((blinkStep s).scan_position_last_write_ + 1) % 256 ∧
        (blinkStep s).scan_position_.val &&& 0x0f ≠ 0) →
        (Update free s).2 =
          [0xfe, addressByte (blinkStep s).scan_position_, resolveChar (blinkStep s)] ∧
        (addressByte (blinkStep s).scan_position_).testBit 7 = true) ∧
     (Update free s).1.remote_ (blinkStep s).scan_position_ = resolveChar (blinkStep s) ∧
     (Update free s).1.scan_position_last_write_ = (blinkStep s).scan_position_.val) := by
  simp only [Update]
  rw [if_neg (show ¬ free < 3 by omega), if_pos hsend]
  by_cases hone : (blinkStep s).scan_position_.val =
      ((blinkStep s).scan_position_last_write_ + 1) % 256 ∧
      (blinkStep s).scan_position_.val &&& 0x0f ≠ 0
  · rw [if_pos hone]
    exact ⟨fun _ => rfl, fun hcon => absurd hone hcon,
           Function.update_same _ _ _, rfl⟩
  · rw [if_neg hone]
    exact ⟨fun hcon => absurd hcon hone, fun _ => ⟨rfl, addressByte_testBit7 _⟩,
           Function.update_same _ _ _, rfl⟩

/-- Witness for C8's theorem: the first tick of the freshly initialised
display (mirror holds `?`, desired page holds spaces) takes the three-byte
reposition path at cell 0. -/
theorem update_transmit_encoding_witness :
    (((blinkStep initialDisplay).scan_position_.val =
        ((blinkStep initialDisplay).scan_position_last_write_ + 1) % 256 ∧
        (blinkStep initialDisplay).scan_position_.val &&& 0x0f ≠ 0 →
        (Update 3 initialDisplay).2 = [resolveChar (blinkStep initialDisplay)]) ∧
     (¬ ((blinkStep initialDisplay).scan_position_.val =
        ((blinkStep initialDisplay).scan_position_last_write_ + 1) % 256 ∧
        (blinkStep initialDisplay).scan_position_.val &&& 0x0f ≠ 0) →
        (Update 3 initialDisplay).2 =
          [0xfe, addressByte (blinkStep initialDisplay).scan_position_,
           resolveChar (blinkStep initialDisplay)] ∧
        (addressByte (blinkStep initialDisplay).scan_position_).testBit 7 = true) ∧
     (Update 3 initialDisplay).1.remote_ (blinkStep initialDisplay).scan_position_ =
        resolveChar (blinkStep initialDisplay) ∧
     (Update 3 initialDisplay).1.scan_position_last_write_ =
        (blinkStep initialDisplay).scan_position_.val) :=
  update_transmit_encoding 3 initialDisplay (by omega) (by decide)

/-- C9: once the transmitted mirror equals the desired page (with no cursor
shown and no status overlay pending — i.e. the resolved desired content),
any further sequence of ticks, in particular a full 32-cell pass, transmits
zero bytes: a converged display is a fixed point of `Update`. -/
theorem converged_display_fixed_point (s : DisplayState) (caps : List Nat)
    (h1 : ∀ i, s.remote_ i = s.local_ i) (h2 : s.status_ = 0)
    (h3 : 32 ≤ s.cursor_position_) :
    (runUpdates caps s).2 = [] := by
  have H : ∀ t, Converged t → (runUpdates caps t).2 = [] := by
    induction caps with
    | nil => intro t ht; rfl
    | cons c rest ih =>
        intro t ht
        obtain ⟨hb, hconv⟩ := Update_converged c t ht
        simp [runUpdates, hb, ih _ hconv]
  exact H s ⟨h1, h2, h3⟩

/-- Witness for C9's theorem: a blank converged display ticked through a
full 32-cell pass at capacity 3 emits nothing. -/
theorem converged_display_fixed_point_witness :
    (runUpdates (List.replicate 32 3) convergedDisplay).2 = [] :=
  converged_display_fixed_point convergedDisplay (List.replicate 32 3)
    (fun _ => rfl) rfl (show (32 : Nat) ≤ 255 by omega)
